import Mathlib

/-!
Verification development for the ESPEI fast shadow functions
(`espei/shadow_functions.py`) and the bounds feasibility predicate
(`espei/error_functions/bounds_error.py`).

Modeling conventions:
* Python floats are modeled as rationals (`ℚ`).
* Python dicts are modeled as association lists (`Dict α` below); iteration
  order is the list order, as dicts preserve insertion order.
* Python exceptions (`KeyError`, `IndexError`, `ValueError`, numpy shape
  errors) are modeled by `Option`/`Except` failure values.
* External pycalphad collaborators (samplers, evaluators, solvers) are
  uninterpreted function parameters; Python sets are `Finset`s.

The file is organized as all definitions first, then the theorems.
-/

namespace Espei

/-- A Python dict with string keys, as an association list. -/
abbrev Dict (α : Type) : Type := List (String × α)

/-- Lexicographic comparison of character lists by code point, matching
Python's `str` ordering used by `sorted`. -/
def charListLe : List Char → List Char → Bool
  | [], _ => true
  | _ :: _, [] => false
  | a :: as, b :: bs =>
    if a.toNat = b.toNat then charListLe as bs else decide (a.toNat < b.toNat)

/-- Python `<=` on strings. -/
def pyStrLe (a b : String) : Bool := charListLe a.data b.data

/-- Python's string ordering as a binary relation. -/
def pyStrRel (a b : String) : Prop := pyStrLe a b = true

instance : DecidableRel pyStrRel := fun a b => instDecidableEqBool (pyStrLe a b) true

/-- Totality of the code-point order (stated as a `def` so the order
instances below can be declared inside the definitions zone). -/
def charListLe_total : ∀ as bs, charListLe as bs = true ∨ charListLe bs as = true
  | [], _ => Or.inl rfl
  | _ :: _, [] => Or.inr rfl
  | a :: as, b :: bs => by
    simp only [charListLe]
    by_cases hab : a.toNat = b.toNat
    · rw [if_pos hab, if_pos hab.symm]
      exact charListLe_total as bs
    · rw [if_neg hab, if_neg (fun h => hab h.symm)]
      rcases Nat.lt_or_ge a.toNat b.toNat with h | h
      · exact Or.inl (decide_eq_true h)
      · exact Or.inr (decide_eq_true (by omega))

/-- Transitivity of the code-point order. -/
def charListLe_trans : ∀ as bs cs, charListLe as bs = true → charListLe bs cs = true →
    charListLe as cs = true
  | [], _, _, _, _ => rfl
  | _ :: _, [], _, h, _ => by simp [charListLe] at h
  | _ :: _, _ :: _, [], _, h => by simp [charListLe] at h
  | a :: as, b :: bs, c :: cs, h1, h2 => by
    simp only [charListLe] at h1 h2 ⊢
    by_cases hab : a.toNat = b.toNat
    · rw [if_pos hab] at h1
      by_cases hbc : b.toNat = c.toNat
      · rw [if_pos hbc] at h2
        rw [if_pos (hab.trans hbc)]
        exact charListLe_trans as bs cs h1 h2
      · rw [if_neg hbc] at h2
        have hlt : b.toNat < c.toNat := of_decide_eq_true h2
        rw [if_neg (by omega)]
        exact decide_eq_true (by omega)
    · rw [if_neg hab] at h1
      have hlt1 : a.toNat < b.toNat := of_decide_eq_true h1
      by_cases hbc : b.toNat = c.toNat
      · rw [if_neg (by omega)]
        exact decide_eq_true (by omega)
      · rw [if_neg hbc] at h2
        have hlt2 : b.toNat < c.toNat := of_decide_eq_true h2
        rw [if_neg (by omega)]
        exact decide_eq_true (by omega)

/-- Antisymmetry of the code-point order. -/
def charListLe_antisymm : ∀ as bs, charListLe as bs = true → charListLe bs as = true →
    as = bs
  | [], [], _, _ => rfl
  | [], _ :: _, _, h => by simp [charListLe] at h
  | _ :: _, [], h, _ => by simp [charListLe] at h
  | a :: as, b :: bs, h1, h2 => by
    simp only [charListLe] at h1 h2
    by_cases hab : a.toNat = b.toNat
    · rw [if_pos hab] at h1
      rw [if_pos hab.symm] at h2
      have heq : a = b := Char.eq_of_val_eq (UInt32.toNat.inj hab)
      rw [heq, charListLe_antisymm as bs h1 h2]
    · rw [if_neg hab] at h1
      rw [if_neg (fun h => hab h.symm)] at h2
      have ha := of_decide_eq_true h1
      have hb := of_decide_eq_true h2
      omega

instance : IsTotal String pyStrRel := ⟨fun a b => charListLe_total a.data b.data⟩

instance : IsTrans String pyStrRel := ⟨fun a b c => charListLe_trans a.data b.data c.data⟩

instance : IsAntisymm String pyStrRel :=
  ⟨fun a b h1 h2 => by
    cases a
    cases b
    exact congrArg String.mk (charListLe_antisymm _ _ h1 h2)⟩

/-- Python `sorted` on a list of strings (lexicographic code-point order). -/
def pySorted (l : List String) : List String := List.insertionSort pyStrRel l

/-! ## `error_functions/bounds_error.py` -/

/-- Result type of `calculate_bounds_error`: `0` or the `-inf` sentinel. -/
inductive BoundsScore where
  | zero
  | negInf
deriving DecidableEq

/-- `generate_bounds(parameters, factor)`: `factor` is either a scalar
(`np.isscalar` branch) applied to every parameter, or a per-parameter list
zipped against the parameters; each bound pair is `(p - p*f, p + p*f)`. -/
def generate_bounds (parameters : List ℚ) (factor : ℚ ⊕ List ℚ) : List (ℚ × ℚ) :=
  match factor with
  | Sum.inl f => parameters.map (fun p => (p - p * f, p + p * f))
  | Sum.inr fs => (parameters.zip fs).map (fun pf => (pf.1 - pf.1 * pf.2, pf.1 + pf.1 * pf.2))

/-- `calculate_bounds_error(parameters, bounds)`: `-inf` if any parameter is
strictly below its min bound or strictly above its max bound, else `0`. -/
def calculate_bounds_error (parameters : List ℚ) (bounds : List (ℚ × ℚ)) : BoundsScore :=
  let bounds_violated : List Bool :=
    (parameters.zip bounds).map (fun pb => decide (pb.1 < pb.2.1) || decide (pb.1 > pb.2.2))
  if bounds_violated.any id then BoundsScore.negInf else BoundsScore.zero

/-! ## `shadow_functions.py`: phase records and parameter updates -/

/-- A pycalphad `PhaseRecord` as seen by the shadow functions: the phase name,
the internal degree-of-freedom count (`phase_dof`), the mutable parameter
vector, and `static_data` standing for all remaining (never-mutated) evaluator
state of the record. -/
structure PhaseRecord where
  phase_name : String
  phase_dof : Nat
  parameters : List ℚ
  static_data : String
deriving DecidableEq

/-- numpy 1-D slice assignment `dst[:] = src`: the source must have the same
length as the destination buffer or be broadcastable (length 1); any other
length mismatch raises (`none`). -/
def ndarray_slice_assign (dst src : List ℚ) : Option (List ℚ) :=
  if src.length = dst.length then some src
  else if src.length = 1 then some (List.replicate dst.length (src.headD 0))
  else none

/-- The per-record loop body of `update_phase_record_parameters`: each record's
parameter buffer receives `parameters` by slice assignment (`np.asarray` with
`dtype=np.float_` is the identity on our rational values). -/
def update_each_record : Dict PhaseRecord → List ℚ → Option (Dict PhaseRecord)
  | [], _ => some []
  | entry :: rest, parameters => do
    let new_params ← ndarray_slice_assign entry.2.parameters parameters
    let tail ← update_each_record rest parameters
    some ((entry.1, { entry.2 with parameters := new_params }) :: tail)

/-- `update_phase_record_parameters(phase_records, parameters)`: when the
parameter array is non-empty, every record's parameter vector is overwritten
in place; an empty array leaves every record untouched. -/
def update_phase_record_parameters (phase_records : Dict PhaseRecord)
    (parameters : List ℚ) : Option (Dict PhaseRecord) :=
  if parameters.length > 0 then update_each_record phase_records parameters
  else some phase_records

/-! ## `shadow_functions.py`: `calculate_` -/

/-- A pycalphad `Species`: a name and an atom count (vacancies have zero
atoms); species sort by name. -/
structure Species where
  name : String
  number_of_atoms : ℚ
deriving DecidableEq

instance : DecidableRel (fun a b : Species => pyStrRel a.name b.name) :=
  fun a b => instDecidableEqBool (pyStrLe a.name b.name) true

/-- Python `sorted` on species (ordering by name). -/
def sortedSpecies (l : List Species) : List Species :=
  List.insertionSort (fun a b : Species => pyStrRel a.name b.name) l

/-- A row-major multi-dimensional float array. -/
structure NDArray where
  shape : List Nat
  data : List ℚ
deriving DecidableEq

/-- Number of elements of one row-major block spanning the axes from `k` on. -/
def blockSize (shape : List Nat) (k : Nat) : Nat := (shape.drop k).prod

/-- The `i`-th row-major block of length `bs` of a flat data buffer. -/
def blockAt (data : List ℚ) (bs i : Nat) : List ℚ := (data.drop (i * bs)).take bs

/-- `numpy.concatenate` along `axis`: every array must agree with the first on
all axes other than `axis`; any mismatch raises rather than truncating. -/
def npConcatenate (arrs : List NDArray) (axis : Nat) : Except String NDArray :=
  match arrs with
  | [] => Except.error "need at least one array to concatenate"
  | a :: rest =>
    if axis < a.shape.length ∧
        ∀ b ∈ rest, b.shape.take axis = a.shape.take axis ∧
          b.shape.drop (axis + 1) = a.shape.drop (axis + 1) then
      Except.ok
        { shape := a.shape.set axis (((a :: rest).map (fun b => b.shape.getD axis 0)).sum),
          data := (List.range ((a.shape.take axis).prod)).flatMap
            (fun i => (a :: rest).flatMap (fun b => blockAt b.data (blockSize b.shape axis) i)) }
    else
      Except.error "all the input array dimensions except for the concatenation axis must match exactly"

/-- A pycalphad `LightDataset`: named coordinate arrays plus data variables,
each a pair of dimension names and an array. -/
structure LightDataset where
  coords : Dict NDArray
  data_vars : Dict (List String × NDArray)
deriving DecidableEq

/-- `getattr(phase_data, var)`: the data variable's array; absent attributes
raise. -/
def LightDataset.getVar (ds : LightDataset) (var : String) : Option NDArray :=
  (ds.data_vars.lookup var).map (fun dv => dv.2)

/-- Python `list.index(x)`: position of the first occurrence; raises when the
element is absent. -/
def pyListIndex (l : List String) (x : String) : Except String Nat :=
  if x ∈ l then Except.ok (l.indexOf x) else Except.error (x ++ " is not in list")

/-- Collect `getattr(phase_data, var)` across the per-phase datasets
(lines 104-105). -/
def gatherVar : List LightDataset → String → Except String (List NDArray)
  | [], _ => Except.ok []
  | ds :: rest, var =>
    match ds.getVar var with
    | some arr => do
        let tail ← gatherVar rest var
        Except.ok (arr :: tail)
    | none => Except.error ("LightDataset object has no attribute " ++ var)

/-- The concatenation loop over the first dataset's data variables (lines
99-108): each variable is concatenated along its `points` axis. -/
def concatVars (all_phase_data : List LightDataset) :
    Dict (List String × NDArray) → Except String (Dict (List String × NDArray))
  | [] => Except.ok []
  | (var, dv) :: rest => do
    let points_idx ← pyListIndex dv.1 "points"
    let arrs ← gatherVar all_phase_data var
    let concat_data ← npConcatenate arrs points_idx
    let tail ← concatVars all_phase_data rest
    Except.ok ((var, (dv.1, concat_data)) :: tail)

/-- Grid assembly (lines 96-112): a single per-phase result passes through
unchanged; several are concatenated variable-by-variable along the points
axis, sharing the first result's coordinates. -/
def concat_phase_datasets (all_phase_data : List LightDataset) : Except String LightDataset :=
  match all_phase_data with
  | [] => Except.error "list index out of range"
  | [final_ds] => Except.ok final_ds
  | ds₀ :: rest => do
    let concatenated_data_vars ← concatVars (ds₀ :: rest) ds₀.data_vars
    Except.ok { coords := ds₀.coords, data_vars := concatenated_data_vars }

/-- pycalphad `unpack_kwarg`: a non-mapping value (possibly `None`) applies to
every phase; a dict is consulted per phase with `default_arg` for missing
keys. -/
def unpack_kwarg {α : Type} (kwarg_obj : Option α ⊕ Dict α) (default_arg : Option α) :
    String → Option α :=
  match kwarg_obj with
  | Sum.inl v => fun _ => v
  | Sum.inr d => fun key =>
      match d.lookup key with
      | some a => some a
      | none => default_arg

/-- Python `max` over a list of naturals; raises on an empty sequence. -/
def pyMax (l : List Nat) : Except String Nat :=
  match l with
  | [] => Except.error "max() arg is an empty sequence"
  | x :: rest => Except.ok (rest.foldl Nat.max x)

/-- Python dict subscript `d[key]`: `KeyError` when the key is missing. -/
def dictGet {α : Type} (d : Dict α) (key : String) : Except String α :=
  match d.lookup key with
  | some a => Except.ok a
  | none => Except.error ("KeyError: " ++ key)

/-- The argument record of one `_compute_phase_values` call made by
`calculate_` (lines 89-93); the source additionally passes `parameters={}`,
constant across calls. -/
structure CPVArgs where
  nonvacant_components : List Species
  str_statevar_dict : Dict (List ℚ)
  points : List (List ℚ)
  phase_record : PhaseRecord
  output : String
  maximum_internal_dof : Nat
  broadcast : Bool
  largest_energy : ℚ
  fake_points : Bool
deriving DecidableEq

/-- The per-phase loop of `calculate_` (lines 80-94), iterating the phases in
sorted order and building each `_compute_phase_values` argument record. The
parameter `sample` stands for the external `_sample_phase_constitution` with
the `point_sample` primitive and `fixed_grid=True`; points are modeled as
already two-dimensional, making `np.atleast_2d` the identity. -/
def phase_loop (Model : Type) (sample : Model → Option Nat → List (List ℚ))
    (nonvacant_components : List Species) (str_statevar_dict : Dict (List ℚ))
    (models : Dict Model) (phase_records : Dict PhaseRecord) (output : String)
    (points_dict : String → Option (List (List ℚ))) (pdens_dict : String → Option Nat)
    (maximum_internal_dof : Nat) (broadcast : Bool) (fake_points : Bool)
    (first_phase : String) : List String → Except String (List CPVArgs)
  | [] => Except.ok []
  | phase_name :: rest => do
    let mod ← dictGet models phase_name
    let phase_record ← dictGet phase_records phase_name
    let points :=
      match points_dict phase_name with
      | none => sample mod (pdens_dict phase_name)
      | some p => p
    let fp := fake_points && (phase_name == first_phase)
    let tail ← phase_loop Model sample nonvacant_components str_statevar_dict models
      phase_records output points_dict pdens_dict maximum_internal_dof broadcast
      fake_points first_phase rest
    Except.ok (({ nonvacant_components := nonvacant_components,
                  str_statevar_dict := str_statevar_dict, points := points,
                  phase_record := phase_record, output := output,
                  maximum_internal_dof := maximum_internal_dof, broadcast := broadcast,
                  largest_energy := 10 ^ 10, fake_points := fp } : CPVArgs) :: tail)

/-- The sampling stage of `calculate_` (lines 76-94): everything up to and
including the construction of each per-phase `_compute_phase_values` argument
record, in sorted phase order. -/
def calculate_args (Model : Type) (sample : Model → Option Nat → List (List ℚ))
    (species : List Species) (phases : List String)
    (str_statevar_dict : Dict (List ℚ)) (models : Dict Model)
    (phase_records : Dict PhaseRecord) (output : String)
    (points : Option (List (List ℚ)) ⊕ Dict (List (List ℚ)))
    (pdens : Option Nat ⊕ Dict Nat) (broadcast : Bool) (fake_points : Bool) :
    Except String (List CPVArgs) := do
  let points_dict := unpack_kwarg points none
  let pdens_dict := unpack_kwarg pdens (some 50)
  let nonvacant_components :=
    (sortedSpecies species).filter (fun x => decide (0 < x.number_of_atoms))
  let maximum_internal_dof ← pyMax (phase_records.map (fun prx => prx.2.phase_dof))
  phase_loop Model sample nonvacant_components str_statevar_dict models phase_records output
    points_dict pdens_dict maximum_internal_dof broadcast fake_points
    ((pySorted phases).headD "") (pySorted phases)

/-- `calculate_(species, phases, str_statevar_dict, models, phase_records,
output, points, pdens, broadcast, fake_points)`: samples each phase, evaluates
it through the external `_compute_phase_values` (the parameter
`compute_phase_values`), and assembles the per-phase results into one grid. -/
def calculate_ (Model : Type) (sample : Model → Option Nat → List (List ℚ))
    (compute_phase_values : CPVArgs → LightDataset)
    (species : List Species) (phases : List String)
    (str_statevar_dict : Dict (List ℚ)) (models : Dict Model)
    (phase_records : Dict PhaseRecord) (output : String)
    (points : Option (List (List ℚ)) ⊕ Dict (List (List ℚ)))
    (pdens : Option Nat ⊕ Dict Nat) (broadcast : Bool) (fake_points : Bool) :
    Except String LightDataset := do
  let args ← calculate_args Model sample species phases str_statevar_dict models phase_records
    output points pdens broadcast fake_points
  concat_phase_datasets (args.map compute_phase_values)

/-- Modelled from the spec: "max internal-DOF across all phases being
processed together" (spec 4.2) — the maximum internal degree of freedom over
the phases actually iterated by the call, for comparison with the value
`calculate_` passes to each phase evaluation. -/
def processed_max_dof (phases : List String) (phase_records : Dict PhaseRecord) :
    Except String Nat :=
  pyMax ((pySorted phases).filterMap
    (fun p => (phase_records.lookup p).map (fun prx => prx.phase_dof)))

/-! ## `shadow_functions.py`: starting point and equilibrium entry points -/

/-- The assembled grid as read by `_single_phase_start_point`: per the source
docstring every state-variable condition has size 1, so the flattened
`argmin` index is the points index, and `GM` (the energy values), `Phase`
(per-point phase labels) and `Y` (per-point internal coordinates) are aligned
along the points axis. -/
structure Grid where
  GM : List ℚ
  Phase : List String
  Y : List (List ℚ)
deriving DecidableEq

/-- `numpy.argmin` over a flattened array: the index of the first occurrence
of the minimum; raises on an empty array. -/
def npArgmin : List ℚ → Option Nat
  | [] => none
  | x :: rest =>
    match npArgmin rest with
    | none => some 0
    | some j => if rest.getD j 0 < x then some (j + 1) else some 0

/-- A pycalphad `CompositionSet`: phase-bound mutable state holding the
internal coordinates, the phase fraction `NP`, the state-variable values, and
the cached energy. -/
structure CompositionSet where
  phase_record : PhaseRecord
  dof : List ℚ
  NP : ℚ
  state_vars : List ℚ
  energy : ℚ
deriving DecidableEq

/-- `CompositionSet.update(dof, NP, state_vars)`: sets the configuration and
recomputes the cached energy with the externally supplied evaluator `eval` of
the bound phase record. -/
def CompositionSet.update (eval : PhaseRecord → List ℚ → List ℚ → ℚ)
    (cs : CompositionSet) (dof : List ℚ) (NP : ℚ) (state_vars : List ℚ) :
    CompositionSet :=
  { cs with dof := dof, NP := NP, state_vars := state_vars,
            energy := eval cs.phase_record state_vars dof }

/-- `np.array([conditions[sv][0] for sv in svs])`: the first value of each
state-variable condition, in the given order. -/
def lookup_state_vars (conditions : Dict (List ℚ)) : List String → Option (List ℚ)
  | [] => some []
  | sv :: rest => do
    let vals ← conditions.lookup sv
    let v ← vals.get? 0
    let tail ← lookup_state_vars conditions rest
    some (v :: tail)

/-- `_single_phase_start_point(conditions, state_variables, phase_records,
grid)`: picks the grid point of minimum `GM` (first occurrence of the
minimum) and builds one `CompositionSet` for that point's phase with the
point's internal coordinates (truncated to the phase's internal-DOF count)
and phase fraction 1.0, regardless of mass balance. `eval` is the external
phase-record energy evaluator used by `CompositionSet.update`. -/
def single_phase_start_point (eval : PhaseRecord → List ℚ → List ℚ → ℚ)
    (conditions : Dict (List ℚ)) (state_variables : Finset String)
    (phase_records : Dict PhaseRecord) (grid : Grid) : Option CompositionSet := do
  let idx_min ← npArgmin grid.GM
  let phase_name ← grid.Phase.get? idx_min
  let prx ← phase_records.lookup phase_name
  let Yrow ← grid.Y.get? idx_min
  let Y := Yrow.take prx.phase_dof
  let state_vars ← lookup_state_vars conditions (state_variables.sort pyStrRel)
  let compset : CompositionSet :=
    { phase_record := prx, dof := [], NP := 0, state_vars := [], energy := 0 }
  some (compset.update eval Y 1 state_vars)

/-- Convergence flag reported by the external `solve_and_update` solver. -/
structure SolverResult where
  converged : Bool
deriving DecidableEq

/-- `OrderedDict([(str(ky), conditions[ky][0]) for ky in
sorted(conditions.keys(), key=str)])`, built over the given sorted key list. -/
def str_conds_of (conditions : Dict (List ℚ)) : List String → Option (Dict ℚ)
  | [] => some []
  | k :: rest => do
    let vals ← conditions.lookup k
    let v ← vals.get? 0
    let tail ← str_conds_of conditions rest
    some ((k, v) :: tail)

/-- `constrained_equilibrium(phase_records, conditions, grid)`: one
composition set from the single-phase starting point, refined by the external
`solve_and_update` (which mutates the set in place — modeled by returning the
new set); returns the solver's convergence flag and `NP * energy` of the
refined set. `gsv`/`adjust` are the external
`get_state_variables`/`_adjust_conditions`. -/
def constrained_equilibrium (eval : PhaseRecord → List ℚ → List ℚ → ℚ)
    (gsv : Dict (List ℚ) → Finset String)
    (adjust : Dict (List ℚ) → Dict (List ℚ))
    (solve_and_update : CompositionSet → Dict ℚ → SolverResult × CompositionSet)
    (phase_records : Dict PhaseRecord) (conditions : Dict (List ℚ)) (grid : Grid) :
    Option (Bool × ℚ) := do
  let statevars := gsv conditions
  let conditions := adjust conditions
  let str_conds ← str_conds_of conditions (pySorted (conditions.map (fun kv => kv.1)))
  let compset ← single_phase_start_point eval conditions statevars phase_records grid
  let result := solve_and_update compset str_conds
  some (result.1.converged, result.2.NP * result.2.energy)

/-- The external pycalphad collaborators of the equilibrium entry points, as
uninterpreted functions. `starting_point` receives the active state variables
as an unordered collection (`equilibrium_` passes a sorted list,
`no_op_equilibrium_` passes the set produced by `get_state_variables`), so it
is modeled on the underlying `Finset`. -/
structure EqExternals (EqResult : Type) where
  get_state_variables : Dict (List ℚ) → Finset String
  adjust_conditions : Dict (List ℚ) → Dict (List ℚ)
  starting_point : Dict (List ℚ) → Finset String → Dict PhaseRecord → Grid → EqResult
  solve_eq_at_conditions :
    EqResult → Dict PhaseRecord → Grid → Dict (List ℚ) → List String → Bool → EqResult

/-- `OrderedDict([(str(ky), conditions[ky]) for ky in
sorted(conditions.keys(), key=str)])`; the keys come from the dict itself, so
the lookup cannot fail (`getD` default is never used). -/
def str_conds_full (conditions : Dict (List ℚ)) : Dict (List ℚ) :=
  (pySorted (conditions.map (fun kv => kv.1))).map
    (fun k => (k, (conditions.lookup k).getD []))

/-- `equilibrium_(phase_records, conditions, grid)`: the full fast equilibrium
path — multi-phase starting point, then solver refinement. -/
def equilibrium_ (EqResult : Type) (E : EqExternals EqResult)
    (phase_records : Dict PhaseRecord) (conditions : Dict (List ℚ)) (grid : Grid) :
    EqResult :=
  let statevars := (E.get_state_variables conditions).sort pyStrRel
  let conditions := E.adjust_conditions conditions
  let str_conds := str_conds_full conditions
  let start_point := E.starting_point conditions statevars.toFinset phase_records grid
  E.solve_eq_at_conditions start_point phase_records grid str_conds statevars false

/-- `no_op_equilibrium_(phase_records, conditions, grid)`: returns the
starting point directly, performing no solver refinement. -/
def no_op_equilibrium_ (EqResult : Type) (E : EqExternals EqResult)
    (phase_records : Dict PhaseRecord) (conditions : Dict (List ℚ)) (grid : Grid) :
    EqResult :=
  let statevars := E.get_state_variables conditions
  let conditions := E.adjust_conditions conditions
  E.starting_point conditions statevars phase_records grid

/-! ## Theorems -/

lemma bounds_violated_any_iff (ps : List ℚ) (bs : List (ℚ × ℚ)) :
    (((ps.zip bs).map
        (fun pb => decide (pb.1 < pb.2.1) || decide (pb.1 > pb.2.2))).any id = true) ↔
      ∃ pb ∈ ps.zip bs, pb.1 < pb.2.1 ∨ pb.2.2 < pb.1 := by
  constructor
  · intro hany
    rw [List.any_eq_true] at hany
    obtain ⟨b, hbmem, hb⟩ := hany
    rw [List.mem_map] at hbmem
    obtain ⟨pb, hmem, rfl⟩ := hbmem
    simp only [id, Bool.or_eq_true, decide_eq_true_eq] at hb
    exact ⟨pb, hmem, hb⟩
  · rintro ⟨pb, hmem, hb⟩
    rw [List.any_eq_true]
    refine ⟨_, List.mem_map_of_mem _ hmem, ?_⟩
    simp only [id, Bool.or_eq_true, decide_eq_true_eq]
    exact hb

lemma calculate_bounds_error_eq_zero_iff (ps : List ℚ) (bs : List (ℚ × ℚ)) :
    calculate_bounds_error ps bs = BoundsScore.zero ↔
      ∀ pb ∈ ps.zip bs, pb.2.1 ≤ pb.1 ∧ pb.1 ≤ pb.2.2 := by
  unfold calculate_bounds_error
  by_cases h : ∃ pb ∈ ps.zip bs, pb.1 < pb.2.1 ∨ pb.2.2 < pb.1
  · rw [if_pos ((bounds_violated_any_iff ps bs).mpr h)]
    constructor
    · intro hcontra; exact BoundsScore.noConfusion hcontra
    · intro hall
      obtain ⟨pb, hmem, hviol⟩ := h
      have := hall pb hmem
      rcases hviol with h1 | h2
      · exact absurd this.1 (not_le.mpr h1)
      · exact absurd this.2 (not_le.mpr h2)
  · rw [if_neg (fun hc => h ((bounds_violated_any_iff ps bs).mp hc))]
    constructor
    · intro _ pb hmem
      by_contra hbad
      rcases not_and_or.mp hbad with h1 | h2
      · exact h ⟨pb, hmem, Or.inl (not_le.mp h1)⟩
      · exact h ⟨pb, hmem, Or.inr (not_le.mp h2)⟩
    · intro _; rfl

/-- C6: with equal-length parameter and bound lists, `calculate_bounds_error`
returns `0` exactly when every parameter lies inclusively within its `(min, max)`
bound pair, and returns the sentinel `-inf` exactly when some parameter is
strictly below its min bound or strictly above its max bound. -/
theorem C6_bounds_predicate (ps : List ℚ) (bs : List (ℚ × ℚ))
    (_hlen : ps.length = bs.length) :
    (calculate_bounds_error ps bs = BoundsScore.zero ↔
      ∀ pb ∈ ps.zip bs, pb.2.1 ≤ pb.1 ∧ pb.1 ≤ pb.2.2) ∧
    (calculate_bounds_error ps bs = BoundsScore.negInf ↔
      ∃ pb ∈ ps.zip bs, pb.1 < pb.2.1 ∨ pb.2.2 < pb.1) := by
  refine ⟨calculate_bounds_error_eq_zero_iff ps bs, ?_⟩
  unfold calculate_bounds_error
  by_cases h : ∃ pb ∈ ps.zip bs, pb.1 < pb.2.1 ∨ pb.2.2 < pb.1
  · rw [if_pos ((bounds_violated_any_iff ps bs).mpr h)]
    exact ⟨fun _ => h, fun _ => rfl⟩
  · rw [if_neg (fun hc => h ((bounds_violated_any_iff ps bs).mp hc))]
    exact ⟨fun hcontra => BoundsScore.noConfusion hcontra, fun hex => absurd hex h⟩

/-- Witness for C6 at a concrete input: a parameter exactly at a bound edge
yields `0`, and a parameter strictly below its min bound yields `-inf`. -/
theorem C6_bounds_predicate_witness :
    calculate_bounds_error [(1 : ℚ), 2] [((0 : ℚ), (1 : ℚ)), (0, 5)] = BoundsScore.zero ∧
    calculate_bounds_error [(-1 : ℚ)] [((0 : ℚ), (1 : ℚ))] = BoundsScore.negInf := by
  constructor
  · refine (C6_bounds_predicate [(1 : ℚ), 2] [((0 : ℚ), (1 : ℚ)), (0, 5)] rfl).1.mpr ?_
    intro pb hmem
    have hz : ([(1 : ℚ), 2].zip [((0 : ℚ), (1 : ℚ)), (0, 5)]) =
        [((1 : ℚ), ((0 : ℚ), (1 : ℚ))), ((2 : ℚ), ((0 : ℚ), (5 : ℚ)))] := rfl
    rw [hz] at hmem
    rcases List.mem_cons.mp hmem with rfl | hmem'
    · norm_num
    · rcases List.mem_cons.mp hmem' with rfl | hnil
      · norm_num
      · exact absurd hnil (List.not_mem_nil _)
  · refine (C6_bounds_predicate [(-1 : ℚ)] [((0 : ℚ), (1 : ℚ))] rfl).2.mpr ?_
    exact ⟨((-1 : ℚ), ((0 : ℚ), (1 : ℚ))), List.mem_singleton.mpr rfl, Or.inl (by norm_num)⟩

/-- C7 counterexample: for the negative base parameter `-1` and non-negative
scale factor `1/2`, the generated bound pair is `(-1/2, -3/2)` (an inverted
interval): the base value does not lie within its own generated bounds, and
the round-trip through `calculate_bounds_error` does not return `0`. -/
theorem C7_counterexample :
    ¬ calculate_bounds_error [(-1 : ℚ)] (generate_bounds [(-1 : ℚ)] (Sum.inl (1/2))) =
      BoundsScore.zero := by
  rw [calculate_bounds_error_eq_zero_iff]
  intro hall
  have hmem : ((-1 : ℚ), ((-1 : ℚ) - (-1) * (1/2), (-1 : ℚ) + (-1) * (1/2))) ∈
      [(-1 : ℚ)].zip (generate_bounds [(-1 : ℚ)] (Sum.inl (1/2))) :=
    List.mem_singleton.mpr rfl
  have h := (hall _ hmem).1
  norm_num at h

lemma zip_self_map {α γ : Type} (g : α → γ) :
    ∀ (ps : List α), ps.zip (ps.map g) = ps.map (fun p => (p, g p))
  | [] => rfl
  | p :: ps => by
    simp only [List.map_cons, List.zip_cons_cons]
    exact congrArg _ (zip_self_map g ps)

lemma zip_self_zip_map {α β γ : Type} (g : α × β → γ) :
    ∀ (ps : List α) (fs : List β),
      ps.zip ((ps.zip fs).map g) = (ps.zip fs).map (fun pf => (pf.1, g pf))
  | [], _ => rfl
  | _ :: _, [] => rfl
  | p :: ps, f :: fs => by
    simp only [List.zip_cons_cons, List.map_cons]
    exact congrArg _ (zip_self_zip_map g ps fs)

/-- C7 amended: `generate_bounds` produces the pair `(p - f·p, p + f·p)` for
each base value `p`; when every base parameter is non-negative and the scale
factor(s) are non-negative, each base value lies within its own generated
bounds, so `calculate_bounds_error` on the base parameters and their generated
bounds returns `0` (for both the scalar-factor and per-parameter-list cases). -/
theorem C7_bounds_round_trip (ps : List ℚ) (hps : ∀ p ∈ ps, 0 ≤ p) :
    (∀ f : ℚ, generate_bounds ps (Sum.inl f) = ps.map (fun p => (p - p * f, p + p * f))) ∧
    (∀ f : ℚ, 0 ≤ f →
      calculate_bounds_error ps (generate_bounds ps (Sum.inl f)) = BoundsScore.zero) ∧
    (∀ fs : List ℚ, (∀ f ∈ fs, 0 ≤ f) →
      calculate_bounds_error ps (generate_bounds ps (Sum.inr fs)) = BoundsScore.zero) := by
  refine ⟨fun _ => rfl, ?_, ?_⟩
  · intro f hf
    rw [calculate_bounds_error_eq_zero_iff]
    intro pb hmem
    unfold generate_bounds at hmem
    rw [zip_self_map, List.mem_map] at hmem
    obtain ⟨p, hp, rfl⟩ := hmem
    have h0p : 0 ≤ p := hps p hp
    have h0 : 0 ≤ p * f := mul_nonneg h0p hf
    constructor
    · simp only
      linarith
    · simp only
      linarith
  · intro fs hfs
    rw [calculate_bounds_error_eq_zero_iff]
    intro pb hmem
    unfold generate_bounds at hmem
    rw [zip_self_zip_map, List.mem_map] at hmem
    obtain ⟨⟨p, f⟩, hp, rfl⟩ := hmem
    have hmem' := List.of_mem_zip hp
    have h0p : 0 ≤ p := hps p hmem'.1
    have h0f : 0 ≤ f := hfs f hmem'.2
    have h0 : 0 ≤ p * f := mul_nonneg h0p h0f
    constructor
    · simp only
      linarith
    · simp only
      linarith

/-- Witness for C7 amended at a concrete input. -/
theorem C7_bounds_round_trip_witness :
    calculate_bounds_error [(2 : ℚ), 0] (generate_bounds [(2 : ℚ), 0] (Sum.inl (1/2))) =
      BoundsScore.zero := by
  refine (C7_bounds_round_trip [(2 : ℚ), 0] ?_).2.1 (1/2) (by norm_num)
  intro p hp
  rcases List.mem_cons.mp hp with rfl | hp'
  · norm_num
  · rcases List.mem_cons.mp hp' with rfl | hnil
    · exact le_refl 0
    · exact absurd hnil (List.not_mem_nil _)

/-- C10 counterexample: overwriting a record whose parameter buffer has length
2 with a length-3 parameter array raises (numpy broadcast error) instead of
overwriting the record's parameter vector with the new values. -/
theorem C10_counterexample :
    update_phase_record_parameters
        [("A", { phase_name := "A", phase_dof := 1, parameters := [0, 0],
                 static_data := "s" })] [1, 2, 3] ≠
      some [("A", { phase_name := "A", phase_dof := 1, parameters := [1, 2, 3],
                    static_data := "s" })] := by
  intro hcontra
  have : update_phase_record_parameters
      [("A", { phase_name := "A", phase_dof := 1, parameters := [0, 0],
               static_data := "s" })] [1, 2, 3] = none := rfl
  rw [this] at hcontra
  exact Option.noConfusion hcontra

lemma update_each_record_all_match (parameters : List ℚ) :
    ∀ prs : Dict PhaseRecord,
      (∀ e ∈ prs, e.2.parameters.length = parameters.length) →
      update_each_record prs parameters =
        some (prs.map (fun e => (e.1, { e.2 with parameters := parameters })))
  | [], _ => rfl
  | entry :: rest, hlen => by
    have hhead : entry.2.parameters.length = parameters.length :=
      hlen entry (List.mem_cons_self entry rest)
    have htail := update_each_record_all_match parameters rest
      (fun e he => hlen e (List.mem_cons_of_mem entry he))
    unfold update_each_record
    rw [htail]
    unfold ndarray_slice_assign
    rw [if_pos hhead.symm]
    rfl

/-- C10 amended: with an empty parameter array, `update_phase_record_parameters`
leaves every phase record unchanged; with a non-empty array whose length
matches each record's parameter-vector length (numpy raises on any other
mismatch, see the counterexample), every record's parameter vector is
overwritten with the same values and no other field (`phase_name`,
`phase_dof`, `static_data`) of any record is modified. -/
theorem C10_update_frame (prs : Dict PhaseRecord) (parameters : List ℚ) :
    (parameters = [] → update_phase_record_parameters prs parameters = some prs) ∧
    (parameters ≠ [] →
      (∀ e ∈ prs, e.2.parameters.length = parameters.length) →
      update_phase_record_parameters prs parameters =
        some (prs.map (fun e => (e.1, { e.2 with parameters := parameters })))) := by
  constructor
  · intro hnil
    subst hnil
    rfl
  · intro hne hlen
    unfold update_phase_record_parameters
    rw [if_pos (List.length_pos.mpr hne)]
    exact update_each_record_all_match parameters prs hlen

/-- Witness for C10 amended at concrete inputs. -/
theorem C10_update_frame_witness :
    update_phase_record_parameters
        [("A", { phase_name := "A", phase_dof := 1, parameters := [0, 0],
                 static_data := "s" })] [] =
      some [("A", { phase_name := "A", phase_dof := 1, parameters := [0, 0],
                    static_data := "s" })] ∧
    update_phase_record_parameters
        [("A", { phase_name := "A", phase_dof := 1, parameters := [0, 0],
                 static_data := "s" })] [5, 7] =
      some [("A", { phase_name := "A", phase_dof := 1, parameters := [5, 7],
                    static_data := "s" })] := by
  constructor
  · exact (C10_update_frame _ []).1 rfl
  · exact (C10_update_frame
      [("A", { phase_name := "A", phase_dof := 1, parameters := [0, 0],
               static_data := "s" })] [5, 7]).2
      (by intro h; exact List.noConfusion h)
      (by
        intro e he
        rcases List.mem_cons.mp he with rfl | hnil
        · rfl
        · exact absurd hnil (List.not_mem_nil _))

lemma except_bind_ok {ε α β : Type} {x : Except ε α} {f : α → Except ε β} {b : β}
    (h : (x >>= f) = Except.ok b) : ∃ a, x = Except.ok a ∧ f a = Except.ok b := by
  cases x with
  | error e => exact absurd h (by simp [Bind.bind, Except.bind])
  | ok a => exact ⟨a, rfl, h⟩

lemma option_bind_some {α β : Type} {x : Option α} {f : α → Option β} {b : β}
    (h : (x >>= f) = some b) : ∃ a, x = some a ∧ f a = some b := by
  cases x with
  | none => exact Option.noConfusion h
  | some a => exact ⟨a, rfl, h⟩

lemma pySorted_eq_of_perm {l₁ l₂ : List String} (h : l₁.Perm l₂) :
    pySorted l₁ = pySorted l₂ :=
  List.eq_of_perm_of_sorted
    (((List.perm_insertionSort pyStrRel l₁).trans h).trans
      (List.perm_insertionSort pyStrRel l₂).symm)
    (List.sorted_insertionSort pyStrRel l₁)
    (List.sorted_insertionSort pyStrRel l₂)

/-- C5: `calculate_` is a pure function of its inputs (two calls with
identical inputs agree definitionally), and both the per-phase evaluation
sequence (`calculate_args`) and the assembled grid are invariant under
reordering of the input phase sequence: phases are iterated, evaluated and
concatenated in name-sorted order. -/
theorem C5_sorted_determinism (Model : Type)
    (sample : Model → Option Nat → List (List ℚ))
    (compute_phase_values : CPVArgs → LightDataset)
    (species : List Species) (phases₁ phases₂ : List String)
    (str_statevar_dict : Dict (List ℚ)) (models : Dict Model)
    (phase_records : Dict PhaseRecord) (output : String)
    (points : Option (List (List ℚ)) ⊕ Dict (List (List ℚ)))
    (pdens : Option Nat ⊕ Dict Nat) (broadcast fake_points : Bool)
    (hperm : phases₁.Perm phases₂) :
    calculate_args Model sample species phases₁ str_statevar_dict models phase_records
        output points pdens broadcast fake_points =
      calculate_args Model sample species phases₂ str_statevar_dict models phase_records
        output points pdens broadcast fake_points ∧
    calculate_ Model sample compute_phase_values species phases₁ str_statevar_dict models
        phase_records output points pdens broadcast fake_points =
      calculate_ Model sample compute_phase_values species phases₂ str_statevar_dict models
        phase_records output points pdens broadcast fake_points := by
  have hsort : pySorted phases₁ = pySorted phases₂ := pySorted_eq_of_perm hperm
  constructor
  · unfold calculate_args
    rw [hsort]
  · unfold calculate_ calculate_args
    rw [hsort]

/-- Witness for C5 at a concrete input: swapping the phase order leaves the
result unchanged. -/
theorem C5_sorted_determinism_witness :
    List.Perm ["B", "A"] ["A", "B"] ∧
    calculate_ Unit (fun _ _ => [[1]]) (fun _ => { coords := [], data_vars := [] })
        [] ["B", "A"] [] [("A", ()), ("B", ())]
        [("A", { phase_name := "A", phase_dof := 1, parameters := [], static_data := "" }),
         ("B", { phase_name := "B", phase_dof := 2, parameters := [], static_data := "" })]
        "GM" (Sum.inl none) (Sum.inl (some 50)) true false =
      calculate_ Unit (fun _ _ => [[1]]) (fun _ => { coords := [], data_vars := [] })
        [] ["A", "B"] [] [("A", ()), ("B", ())]
        [("A", { phase_name := "A", phase_dof := 1, parameters := [], static_data := "" }),
         ("B", { phase_name := "B", phase_dof := 2, parameters := [], static_data := "" })]
        "GM" (Sum.inl none) (Sum.inl (some 50)) true false :=
  ⟨by decide,
   (C5_sorted_determinism Unit (fun _ _ => [[1]]) (fun _ => { coords := [], data_vars := [] })
      [] ["B", "A"] ["A", "B"] [] [("A", ()), ("B", ())]
      [("A", { phase_name := "A", phase_dof := 1, parameters := [], static_data := "" }),
       ("B", { phase_name := "B", phase_dof := 2, parameters := [], static_data := "" })]
      "GM" (Sum.inl none) (Sum.inl (some 50)) true false (by decide)).2⟩

lemma phase_loop_ok_facts (Model : Type) (sample : Model → Option Nat → List (List ℚ))
    (nonvacant_components : List Species) (str_statevar_dict : Dict (List ℚ))
    (models : Dict Model) (phase_records : Dict PhaseRecord) (output : String)
    (points_dict : String → Option (List (List ℚ))) (pdens_dict : String → Option Nat)
    (maximum_internal_dof : Nat) (broadcast : Bool) (fake_points : Bool)
    (first_phase : String) :
    ∀ (l : List String) (args : List CPVArgs),
      phase_loop Model sample nonvacant_components str_statevar_dict models phase_records
          output points_dict pdens_dict maximum_internal_dof broadcast fake_points
          first_phase l = Except.ok args →
      args.map (fun a => a.fake_points) = l.map (fun p => fake_points && (p == first_phase)) ∧
      (∀ a ∈ args, a.maximum_internal_dof = maximum_internal_dof) ∧
      List.Forall₂ (fun p a => dictGet phase_records p = Except.ok a.phase_record) l args
  | [], args, h => by
    have hargs : args = [] := (Except.ok.inj h).symm
    subst hargs
    exact ⟨rfl, fun a ha => absurd ha (List.not_mem_nil a), List.Forall₂.nil⟩
  | phase_name :: rest, args, h => by
    unfold phase_loop at h
    obtain ⟨mod, hmod, h⟩ := except_bind_ok h
    obtain ⟨prx, hprx, h⟩ := except_bind_ok h
    obtain ⟨tail, htail, h⟩ := except_bind_ok h
    have hargs := (Except.ok.inj h).symm
    subst hargs
    obtain ⟨ih1, ih2, ih3⟩ := phase_loop_ok_facts Model sample nonvacant_components
      str_statevar_dict models phase_records output points_dict pdens_dict
      maximum_internal_dof broadcast fake_points first_phase rest tail htail
    refine ⟨?_, ?_, ?_⟩
    · simp only [List.map_cons, ih1]
    · intro a ha
      rcases List.mem_cons.mp ha with rfl | hmem
      · rfl
      · exact ih2 a hmem
    · exact List.Forall₂.cons hprx ih3

lemma calculate_args_ok_inv (Model : Type) (sample : Model → Option Nat → List (List ℚ))
    (species : List Species) (phases : List String) (str_statevar_dict : Dict (List ℚ))
    (models : Dict Model) (phase_records : Dict PhaseRecord) (output : String)
    (points : Option (List (List ℚ)) ⊕ Dict (List (List ℚ)))
    (pdens : Option Nat ⊕ Dict Nat) (broadcast fake_points : Bool) (args : List CPVArgs)
    (hok : calculate_args Model sample species phases str_statevar_dict models phase_records
        output points pdens broadcast fake_points = Except.ok args) :
    ∃ m, pyMax (phase_records.map (fun prx => prx.2.phase_dof)) = Except.ok m ∧
      phase_loop Model sample
          ((sortedSpecies species).filter (fun x => decide (0 < x.number_of_atoms)))
          str_statevar_dict models phase_records output (unpack_kwarg points none)
          (unpack_kwarg pdens (some 50)) m broadcast fake_points
          ((pySorted phases).headD "") (pySorted phases) = Except.ok args := by
  unfold calculate_args at hok
  obtain ⟨m, hm, h⟩ := except_bind_ok hok
  exact ⟨m, hm, h⟩

/-- C8: when `fake_points` is set and more than one (distinct) phase is
present, the flag forwarded to the phase evaluator is `true` for exactly the
first phase in name-sorted order — the head of the evaluation sequence, whose
phase record is the one looked up for the head of `sorted(phases)` — and
`false` for every other phase. -/
theorem C8_fake_points_first_only (Model : Type)
    (sample : Model → Option Nat → List (List ℚ)) (species : List Species)
    (phases : List String) (str_statevar_dict : Dict (List ℚ)) (models : Dict Model)
    (phase_records : Dict PhaseRecord) (output : String)
    (points : Option (List (List ℚ)) ⊕ Dict (List (List ℚ)))
    (pdens : Option Nat ⊕ Dict Nat) (broadcast : Bool) (args : List CPVArgs)
    (hnd : phases.Nodup) (hlen : 1 < phases.length)
    (hok : calculate_args Model sample species phases str_statevar_dict models phase_records
        output points pdens broadcast true = Except.ok args) :
    args.map (fun a => a.fake_points) = true :: List.replicate (phases.length - 1) false ∧
    List.Forall₂ (fun p a => dictGet phase_records p = Except.ok a.phase_record)
      (pySorted phases) args := by
  obtain ⟨m, _, hloop⟩ := calculate_args_ok_inv Model sample species phases str_statevar_dict
    models phase_records output points pdens broadcast true args hok
  obtain ⟨hflags, _, hrecs⟩ := phase_loop_ok_facts Model sample _ str_statevar_dict models
    phase_records output _ _ m broadcast true ((pySorted phases).headD "")
    (pySorted phases) args hloop
  refine ⟨?_, hrecs⟩
  have hperm : (pySorted phases).Perm phases := List.perm_insertionSort pyStrRel phases
  have hsortnd : (pySorted phases).Nodup := hperm.nodup_iff.mpr hnd
  have hsortlen : (pySorted phases).length = phases.length := hperm.length_eq
  obtain ⟨p₀, tl, hcons⟩ : ∃ p₀ tl, pySorted phases = p₀ :: tl := by
    cases hsort : pySorted phases with
    | nil =>
      rw [hsort] at hsortlen
      simp only [List.length_nil] at hsortlen
      omega
    | cons p₀ tl => exact ⟨p₀, tl, rfl⟩
  rw [hcons] at hflags hsortnd hsortlen
  simp only [List.headD_cons] at hflags
  rw [hflags]
  simp only [List.map_cons, Bool.true_and, beq_self_eq_true]
  refine congrArg _ ?_
  have hnotmem : p₀ ∉ tl := (List.nodup_cons.mp hsortnd).1
  rw [List.eq_replicate_iff]
  constructor
  · rw [List.length_map]
    simp only [List.length_cons] at hsortlen
    omega
  · intro b hb
    rw [List.mem_map] at hb
    obtain ⟨p, hp, rfl⟩ := hb
    exact beq_eq_false_iff_ne.mpr (fun hpe => hnotmem (hpe ▸ hp))

/-- Witness for C8 at a concrete input with three phases, out of name order:
the fake-points flag is true exactly for the first phase in sorted order. -/
theorem C8_fake_points_first_only_witness :
    ([({ nonvacant_components := [], str_statevar_dict := [], points := [[1]],
         phase_record := { phase_name := "A", phase_dof := 1, parameters := [],
                           static_data := "" },
         output := "GM", maximum_internal_dof := 3, broadcast := true,
         largest_energy := 10 ^ 10, fake_points := true } : CPVArgs),
      { nonvacant_components := [], str_statevar_dict := [], points := [[1]],
        phase_record := { phase_name := "B", phase_dof := 2, parameters := [],
                          static_data := "" },
        output := "GM", maximum_internal_dof := 3, broadcast := true,
        largest_energy := 10 ^ 10, fake_points := false },
      { nonvacant_components := [], str_statevar_dict := [], points := [[1]],
        phase_record := { phase_name := "C", phase_dof := 3, parameters := [],
                          static_data := "" },
        output := "GM", maximum_internal_dof := 3, broadcast := true,
        largest_energy := 10 ^ 10, fake_points := false }].map
        (fun a => a.fake_points)) =
      true :: List.replicate (["C", "A", "B"].length - 1) false :=
  (C8_fake_points_first_only Unit (fun _ _ => [[1]]) [] ["C", "A", "B"] []
    [("A", ()), ("B", ()), ("C", ())]
    [("A", { phase_name := "A", phase_dof := 1, parameters := [], static_data := "" }),
     ("B", { phase_name := "B", phase_dof := 2, parameters := [], static_data := "" }),
     ("C", { phase_name := "C", phase_dof := 3, parameters := [], static_data := "" })]
    "GM" (Sum.inl none) (Sum.inl (some 50)) true
    [{ nonvacant_components := [], str_statevar_dict := [], points := [[1]],
       phase_record := { phase_name := "A", phase_dof := 1, parameters := [],
                         static_data := "" },
       output := "GM", maximum_internal_dof := 3, broadcast := true,
       largest_energy := 10 ^ 10, fake_points := true },
     { nonvacant_components := [], str_statevar_dict := [], points := [[1]],
       phase_record := { phase_name := "B", phase_dof := 2, parameters := [],
                         static_data := "" },
       output := "GM", maximum_internal_dof := 3, broadcast := true,
       largest_energy := 10 ^ 10, fake_points := false },
     { nonvacant_components := [], str_statevar_dict := [], points := [[1]],
       phase_record := { phase_name := "C", phase_dof := 3, parameters := [],
                         static_data := "" },
       output := "GM", maximum_internal_dof := 3, broadcast := true,
       largest_energy := 10 ^ 10, fake_points := false }]
    (by decide) (by decide) rfl).1

/-- C9 counterexample: with phase records for `A` (1 internal DOF) and `B`
(5 internal DOF) but only phase `A` being processed, the padding bound passed
to the phase evaluation is 5, whereas the maximum internal-DOF across the
phases being processed (spec 4.2's words, `processed_max_dof`) is 1. -/
theorem C9_counterexample :
    (calculate_args Unit (fun _ _ => [[1]]) [] ["A"] [] [("A", ())]
        [("A", { phase_name := "A", phase_dof := 1, parameters := [], static_data := "" }),
         ("B", { phase_name := "B", phase_dof := 5, parameters := [], static_data := "" })]
        "GM" (Sum.inl none) (Sum.inl (some 50)) true false).map
      (List.map (fun a => a.maximum_internal_dof)) = Except.ok [5] ∧
    processed_max_dof ["A"]
        [("A", { phase_name := "A", phase_dof := 1, parameters := [], static_data := "" }),
         ("B", { phase_name := "B", phase_dof := 5, parameters := [], static_data := "" })] =
      Except.ok 1 ∧
    processed_max_dof ["A"]
        [("A", { phase_name := "A", phase_dof := 1, parameters := [], static_data := "" }),
         ("B", { phase_name := "B", phase_dof := 5, parameters := [], static_data := "" })] ≠
      Except.ok 5 := by
  refine ⟨rfl, rfl, ?_⟩
  intro hcontra
  have h1 : (1 : Nat) = 5 := Except.ok.inj ((rfl :
    processed_max_dof ["A"]
        [("A", { phase_name := "A", phase_dof := 1, parameters := [], static_data := "" }),
         ("B", { phase_name := "B", phase_dof := 5, parameters := [], static_data := "" })] =
      Except.ok 1).symm.trans hcontra)
  exact absurd h1 (by decide)

/-- C9 amended: the maximum internal-DOF bound passed to every phase
evaluation in a `calculate_` call is the Python `max` of `phase_dof` over all
supplied phase records — which may be a strict superset of the phases being
processed (see the counterexample), in which case it exceeds the
processed-phases maximum. -/
theorem C9_max_dof_from_records (Model : Type)
    (sample : Model → Option Nat → List (List ℚ)) (species : List Species)
    (phases : List String) (str_statevar_dict : Dict (List ℚ)) (models : Dict Model)
    (phase_records : Dict PhaseRecord) (output : String)
    (points : Option (List (List ℚ)) ⊕ Dict (List (List ℚ)))
    (pdens : Option Nat ⊕ Dict Nat) (broadcast fake_points : Bool) (args : List CPVArgs)
    (hok : calculate_args Model sample species phases str_statevar_dict models phase_records
        output points pdens broadcast fake_points = Except.ok args) :
    ∃ m, pyMax (phase_records.map (fun prx => prx.2.phase_dof)) = Except.ok m ∧
      ∀ a ∈ args, a.maximum_internal_dof = m := by
  obtain ⟨m, hm, hloop⟩ := calculate_args_ok_inv Model sample species phases
    str_statevar_dict models phase_records output points pdens broadcast fake_points args hok
  obtain ⟨_, hmid, _⟩ := phase_loop_ok_facts Model sample _ str_statevar_dict models
    phase_records output _ _ m broadcast fake_points ((pySorted phases).headD "")
    (pySorted phases) args hloop
  exact ⟨m, hm, hmid⟩

/-- Witness for C9 amended at a concrete input. -/
theorem C9_max_dof_from_records_witness :
    ∃ m, pyMax
        ([("A", { phase_name := "A", phase_dof := 1, parameters := [], static_data := "" }),
          ("B", ({ phase_name := "B", phase_dof := 5, parameters := [],
                   static_data := "" } : PhaseRecord))].map
          (fun prx => prx.2.phase_dof)) = Except.ok m ∧
      ∀ a ∈ [({ nonvacant_components := [], str_statevar_dict := [], points := [[1]],
                phase_record := { phase_name := "A", phase_dof := 1, parameters := [],
                                  static_data := "" },
                output := "GM", maximum_internal_dof := 5, broadcast := true,
                largest_energy := 10 ^ 10, fake_points := false } : CPVArgs)],
        a.maximum_internal_dof = m :=
  C9_max_dof_from_records Unit (fun _ _ => [[1]]) [] ["A"] [] [("A", ())]
    [("A", { phase_name := "A", phase_dof := 1, parameters := [], static_data := "" }),
     ("B", { phase_name := "B", phase_dof := 5, parameters := [], static_data := "" })]
    "GM" (Sum.inl none) (Sum.inl (some 50)) true false
    [{ nonvacant_components := [], str_statevar_dict := [], points := [[1]],
       phase_record := { phase_name := "A", phase_dof := 1, parameters := [],
                         static_data := "" },
       output := "GM", maximum_internal_dof := 5, broadcast := true,
       largest_energy := 10 ^ 10, fake_points := false }] rfl

lemma take_set_eq {α : Type} : ∀ (l : List α) (k : Nat) (v : α),
    (l.set k v).take k = l.take k
  | [], _, _ => rfl
  | _ :: _, 0, _ => rfl
  | a :: l, k + 1, v => congrArg (List.cons a) (take_set_eq l k v)

lemma drop_succ_set_eq {α : Type} : ∀ (l : List α) (k : Nat) (v : α),
    (l.set k v).drop (k + 1) = l.drop (k + 1)
  | [], _, _ => rfl
  | _ :: _, 0, _ => rfl
  | _ :: l, k + 1, v => drop_succ_set_eq l k v

lemma getD_set_self {α : Type} (d : α) : ∀ (l : List α) (k : Nat) (v : α),
    k < l.length → (l.set k v).getD k d = v
  | [], _, _, h => absurd h (by simp)
  | _ :: _, 0, _, _ => rfl
  | _ :: l, k + 1, v, h => getD_set_self d l k v (by simpa using h)

lemma npConcatenate_cons_eq (a : NDArray) (rest : List NDArray) (axis : Nat) :
    npConcatenate (a :: rest) axis =
      if axis < a.shape.length ∧
          ∀ b ∈ rest, b.shape.take axis = a.shape.take axis ∧
            b.shape.drop (axis + 1) = a.shape.drop (axis + 1) then
        Except.ok
          { shape := a.shape.set axis (((a :: rest).map (fun b => b.shape.getD axis 0)).sum),
            data := (List.range ((a.shape.take axis).prod)).flatMap
              (fun i => (a :: rest).flatMap
                (fun b => blockAt b.data (blockSize b.shape axis) i)) }
      else
        Except.error "all the input array dimensions except for the concatenation axis must match exactly" :=
  rfl

lemma npConcatenate_ok_inv {a : NDArray} {rest : List NDArray} {axis : Nat} {out : NDArray}
    (hok : npConcatenate (a :: rest) axis = Except.ok out) :
    (axis < a.shape.length ∧
      ∀ b ∈ rest, b.shape.take axis = a.shape.take axis ∧
        b.shape.drop (axis + 1) = a.shape.drop (axis + 1)) ∧
    out.shape = a.shape.set axis (((a :: rest).map (fun b => b.shape.getD axis 0)).sum) := by
  rw [npConcatenate_cons_eq] at hok
  by_cases h : axis < a.shape.length ∧
      ∀ b ∈ rest, b.shape.take axis = a.shape.take axis ∧
        b.shape.drop (axis + 1) = a.shape.drop (axis + 1)
  · rw [if_pos h] at hok
    exact ⟨h, congrArg NDArray.shape (Except.ok.inj hok).symm⟩
  · rw [if_neg h] at hok
    exact absurd hok (by simp)

lemma gatherVar_length (var : String) : ∀ (all : List LightDataset) (arrs : List NDArray),
    gatherVar all var = Except.ok arrs → arrs.length = all.length
  | [], arrs, h => by
    rw [← Except.ok.inj h]
    rfl
  | ds :: rest, arrs, h => by
    unfold gatherVar at h
    cases hv : ds.getVar var with
    | none =>
      rw [hv] at h
      exact absurd h (by simp)
    | some arr =>
      rw [hv] at h
      obtain ⟨tail, htail, h⟩ := except_bind_ok h
      rw [← Except.ok.inj h]
      simp only [List.length_cons]
      rw [gatherVar_length var rest tail htail]

lemma concatVars_ok_forall₂ (all : List LightDataset) :
    ∀ (vars cv : Dict (List String × NDArray)),
      concatVars all vars = Except.ok cv →
      List.Forall₂ (fun (src dst : String × (List String × NDArray)) =>
        dst.1 = src.1 ∧ dst.2.1 = src.2.1 ∧
        ∃ pidx arrs,
          pyListIndex src.2.1 "points" = Except.ok pidx ∧
          gatherVar all src.1 = Except.ok arrs ∧
          arrs.length = all.length ∧
          npConcatenate arrs pidx = Except.ok dst.2.2) vars cv
  | [], cv, h => by
    rw [← Except.ok.inj h]
    exact List.Forall₂.nil
  | (var, dv) :: rest, cv, h => by
    unfold concatVars at h
    obtain ⟨pidx, hpidx, h⟩ := except_bind_ok h
    obtain ⟨arrs, harrs, h⟩ := except_bind_ok h
    obtain ⟨cdata, hcdata, h⟩ := except_bind_ok h
    obtain ⟨tail, htail, h⟩ := except_bind_ok h
    rw [← Except.ok.inj h]
    exact List.Forall₂.cons
      ⟨rfl, rfl, pidx, arrs, hpidx, harrs, gatherVar_length var all arrs harrs, hcdata⟩
      (concatVars_ok_forall₂ all rest tail htail)

/-- C4: grid assembly behavior of `calculate_`.
1. When the evaluation sequence has exactly one phase, the per-phase result is
   returned unchanged (no concatenation).
2. When more than one per-phase result is assembled successfully, the output
   keeps the first result's coordinates, and every data variable of the first
   result was gathered from all per-phase results and concatenated at the
   index of its `points` dimension — so success implies every variable's
   arrays matched off the points axis (no silent truncation).
3. A successful concatenation changes only the points axis: all axes before
   and after it are unchanged, and the concatenation axis is the sum of the
   inputs' point counts.
4. Any mismatch on a non-concatenation axis aborts `numpy.concatenate` (and
   hence, by 2, the whole call) with an error. -/
theorem C4_grid_assembly :
    (∀ (Model : Type) (sample : Model → Option Nat → List (List ℚ))
        (compute_phase_values : CPVArgs → LightDataset) (species : List Species)
        (phases : List String) (str_statevar_dict : Dict (List ℚ)) (models : Dict Model)
        (phase_records : Dict PhaseRecord) (output : String)
        (points : Option (List (List ℚ)) ⊕ Dict (List (List ℚ)))
        (pdens : Option Nat ⊕ Dict Nat) (broadcast fake_points : Bool) (a : CPVArgs),
      calculate_args Model sample species phases str_statevar_dict models phase_records
          output points pdens broadcast fake_points = Except.ok [a] →
      calculate_ Model sample compute_phase_values species phases str_statevar_dict models
          phase_records output points pdens broadcast fake_points =
        Except.ok (compute_phase_values a)) ∧
    (∀ (ds₀ d₁ : LightDataset) (rest : List LightDataset) (out : LightDataset),
      concat_phase_datasets (ds₀ :: d₁ :: rest) = Except.ok out →
      out.coords = ds₀.coords ∧
      List.Forall₂ (fun (src dst : String × (List String × NDArray)) =>
        dst.1 = src.1 ∧ dst.2.1 = src.2.1 ∧
        ∃ pidx arrs,
          pyListIndex src.2.1 "points" = Except.ok pidx ∧
          gatherVar (ds₀ :: d₁ :: rest) src.1 = Except.ok arrs ∧
          arrs.length = (ds₀ :: d₁ :: rest).length ∧
          npConcatenate arrs pidx = Except.ok dst.2.2) ds₀.data_vars out.data_vars) ∧
    (∀ (a : NDArray) (rest : List NDArray) (axis : Nat) (out : NDArray),
      npConcatenate (a :: rest) axis = Except.ok out →
      out.shape.take axis = a.shape.take axis ∧
      out.shape.drop (axis + 1) = a.shape.drop (axis + 1) ∧
      out.shape.getD axis 0 = ((a :: rest).map (fun b => b.shape.getD axis 0)).sum) ∧
    (∀ (a : NDArray) (rest : List NDArray) (axis : Nat),
      (∃ b ∈ rest, ¬(b.shape.take axis = a.shape.take axis ∧
          b.shape.drop (axis + 1) = a.shape.drop (axis + 1))) →
      ∃ msg, npConcatenate (a :: rest) axis = Except.error msg) := by
  refine ⟨?_, ?_, ?_, ?_⟩
  · intro Model sample compute_phase_values species phases str_statevar_dict models
      phase_records output points pdens broadcast fake_points a hok
    unfold calculate_
    rw [hok]
    rfl
  · intro ds₀ d₁ rest out hok
    unfold concat_phase_datasets at hok
    obtain ⟨cvars, hcv, h⟩ := except_bind_ok hok
    rw [← Except.ok.inj h]
    exact ⟨rfl, concatVars_ok_forall₂ (ds₀ :: d₁ :: rest) ds₀.data_vars cvars hcv⟩
  · intro a rest axis out hok
    obtain ⟨⟨haxis, _⟩, hshape⟩ := npConcatenate_ok_inv hok
    rw [hshape]
    exact ⟨take_set_eq a.shape axis _, drop_succ_set_eq a.shape axis _,
      getD_set_self 0 a.shape axis _ haxis⟩
  · intro a rest axis hmismatch
    rw [npConcatenate_cons_eq]
    rw [if_neg (fun hall => by
      obtain ⟨b, hb, hnot⟩ := hmismatch
      exact hnot (hall.2 b hb))]
    exact ⟨_, rfl⟩

/-- Witness for C4 at concrete inputs: a single-phase call passes its dataset
through unchanged, and a concatenation with a mismatched non-points axis
errors. -/
theorem C4_grid_assembly_witness :
    calculate_ Unit (fun _ _ => [[1]]) (fun _ => { coords := [], data_vars := [] })
        [] ["A"] [] [("A", ())]
        [("A", { phase_name := "A", phase_dof := 1, parameters := [], static_data := "" })]
        "GM" (Sum.inl none) (Sum.inl (some 50)) true false =
      Except.ok { coords := [], data_vars := [] } ∧
    ∃ msg, npConcatenate
        [{ shape := [2, 1], data := [0, 0] }, { shape := [3, 1], data := [0, 0, 0] }] 1 =
      Except.error msg :=
  ⟨C4_grid_assembly.1 Unit (fun _ _ => [[1]]) (fun _ => { coords := [], data_vars := [] })
      [] ["A"] [] [("A", ())]
      [("A", { phase_name := "A", phase_dof := 1, parameters := [], static_data := "" })]
      "GM" (Sum.inl none) (Sum.inl (some 50)) true false
      { nonvacant_components := [], str_statevar_dict := [], points := [[1]],
        phase_record := { phase_name := "A", phase_dof := 1, parameters := [],
                          static_data := "" },
        output := "GM", maximum_internal_dof := 1, broadcast := true,
        largest_energy := 10 ^ 10, fake_points := false } rfl,
   C4_grid_assembly.2.2.2 { shape := [2, 1], data := [0, 0] }
      [{ shape := [3, 1], data := [0, 0, 0] }] 1
      ⟨{ shape := [3, 1], data := [0, 0, 0] }, List.mem_singleton.mpr rfl, by decide⟩⟩

lemma npArgmin_none : ∀ (xs : List ℚ), npArgmin xs = none → xs = []
  | [], _ => rfl
  | x :: rest, h => by
    unfold npArgmin at h
    cases hrec : npArgmin rest with
    | none =>
      rw [hrec] at h
      exact Option.noConfusion h
    | some j =>
      rw [hrec] at h
      have h' : (if rest.getD j 0 < x then some (j + 1) else some 0) = (none : Option Nat) := h
      split_ifs at h'

lemma npArgmin_spec : ∀ (xs : List ℚ) (i : Nat), npArgmin xs = some i →
    i < xs.length ∧ (∀ j, j < xs.length → xs.getD i 0 ≤ xs.getD j 0) ∧
    ∀ j, j < i → xs.getD i 0 < xs.getD j 0
  | [], _, h => Option.noConfusion h
  | x :: rest, i, h => by
    unfold npArgmin at h
    cases hrec : npArgmin rest with
    | none =>
      rw [hrec] at h
      have hi : i = 0 := (Option.some.inj h).symm
      subst hi
      have hrest : rest = [] := npArgmin_none rest hrec
      subst hrest
      refine ⟨by simp, ?_, ?_⟩
      · intro j hj
        simp only [List.length_cons, List.length_nil] at hj
        have hj0 : j = 0 := by omega
        subst hj0
        exact le_refl _
      · intro j hj
        omega
    | some j =>
      rw [hrec] at h
      have h' : (if rest.getD j 0 < x then some (j + 1) else some 0) = some i := h
      obtain ⟨hjlen, hmin, hfirst⟩ := npArgmin_spec rest j hrec
      by_cases hlt : rest.getD j 0 < x
      · rw [if_pos hlt] at h'
        have hi : i = j + 1 := (Option.some.inj h').symm
        subst hi
        refine ⟨?_, ?_, ?_⟩
        · simp only [List.length_cons]
          omega
        · intro k hk
          cases k with
          | zero =>
            simp only [List.getD_cons_succ, List.getD_cons_zero]
            exact le_of_lt hlt
          | succ k' =>
            simp only [List.length_cons] at hk
            simp only [List.getD_cons_succ]
            exact hmin k' (by omega)
        · intro k hk
          cases k with
          | zero =>
            simp only [List.getD_cons_succ, List.getD_cons_zero]
            exact hlt
          | succ k' =>
            simp only [List.getD_cons_succ]
            exact hfirst k' (by omega)
      · rw [if_neg hlt] at h'
        have hi : i = 0 := (Option.some.inj h').symm
        subst hi
        push_neg at hlt
        refine ⟨by simp, ?_, ?_⟩
        · intro k hk
          cases k with
          | zero =>
            exact le_refl _
          | succ k' =>
            simp only [List.length_cons] at hk
            simp only [List.getD_cons_succ, List.getD_cons_zero]
            exact le_trans hlt (hmin k' (by omega))
        · intro k hk
          omega

lemma single_phase_start_point_fields (eval : PhaseRecord → List ℚ → List ℚ → ℚ)
    (conditions : Dict (List ℚ)) (state_variables : Finset String)
    (phase_records : Dict PhaseRecord) (grid : Grid) (cs : CompositionSet)
    (hok : single_phase_start_point eval conditions state_variables phase_records grid =
      some cs) :
    ∃ i phase_name Yrow svvals,
      npArgmin grid.GM = some i ∧
      grid.Phase.get? i = some phase_name ∧
      phase_records.lookup phase_name = some cs.phase_record ∧
      grid.Y.get? i = some Yrow ∧
      lookup_state_vars conditions (state_variables.sort pyStrRel) = some svvals ∧
      cs.dof = Yrow.take cs.phase_record.phase_dof ∧
      cs.NP = 1 ∧
      cs.state_vars = svvals ∧
      cs.energy = eval cs.phase_record svvals (Yrow.take cs.phase_record.phase_dof) := by
  unfold single_phase_start_point at hok
  obtain ⟨i, hi, hok⟩ := option_bind_some hok
  obtain ⟨phase_name, hpn, hok⟩ := option_bind_some hok
  obtain ⟨prx, hprx, hok⟩ := option_bind_some hok
  obtain ⟨Yrow, hY, hok⟩ := option_bind_some hok
  obtain ⟨svvals, hsv, hok⟩ := option_bind_some hok
  have hcs : cs =
      ({ phase_record := prx, dof := [], NP := 0, state_vars := [],
         energy := 0 } : CompositionSet).update eval (Yrow.take prx.phase_dof) 1 svvals :=
    (Option.some.inj hok).symm
  subst hcs
  exact ⟨i, phase_name, Yrow, svvals, hi, hpn, hprx, hY, hsv, rfl, rfl, rfl, rfl⟩

/-- C1: when `_single_phase_start_point` succeeds, it selects the grid point
whose energy `GM` is minimal over the full grid, with ties broken by the first
occurrence in grid order (the sorted-phase sampling order of assembly), and
constructs exactly one composition set bound to that point's phase record and
internal coordinates (truncated to the phase's internal DOF) with phase
fraction fixed at 1.0; the selection reads only the state-variable entries of
the conditions — overall mass-balance feasibility is never consulted. -/
theorem C1_single_phase_start_point (eval : PhaseRecord → List ℚ → List ℚ → ℚ)
    (conditions : Dict (List ℚ)) (state_variables : Finset String)
    (phase_records : Dict PhaseRecord) (grid : Grid) (cs : CompositionSet)
    (hok : single_phase_start_point eval conditions state_variables phase_records grid =
      some cs) :
    ∃ i phase_name Yrow svvals,
      npArgmin grid.GM = some i ∧
      i < grid.GM.length ∧
      (∀ j, j < grid.GM.length → grid.GM.getD i 0 ≤ grid.GM.getD j 0) ∧
      (∀ j, j < i → grid.GM.getD i 0 < grid.GM.getD j 0) ∧
      grid.Phase.get? i = some phase_name ∧
      phase_records.lookup phase_name = some cs.phase_record ∧
      grid.Y.get? i = some Yrow ∧
      lookup_state_vars conditions (state_variables.sort pyStrRel) = some svvals ∧
      cs.dof = Yrow.take cs.phase_record.phase_dof ∧
      cs.NP = 1 ∧
      cs.state_vars = svvals ∧
      cs.energy = eval cs.phase_record svvals (Yrow.take cs.phase_record.phase_dof) ∧
      (∀ conditions' : Dict (List ℚ),
        lookup_state_vars conditions' (state_variables.sort pyStrRel) =
          lookup_state_vars conditions (state_variables.sort pyStrRel) →
        single_phase_start_point eval conditions' state_variables phase_records grid =
          some cs) := by
  have hok₀ := hok
  obtain ⟨i, phase_name, Yrow, svvals, hi, hpn, hprx, hY, hsv, hdof, hNP, hstv, hen⟩ :=
    single_phase_start_point_fields eval conditions state_variables phase_records grid cs hok
  obtain ⟨hilen, hmin, hfirst⟩ := npArgmin_spec grid.GM i hi
  refine ⟨i, phase_name, Yrow, svvals, hi, hilen, hmin, hfirst, hpn, hprx, hY, hsv, hdof,
    hNP, hstv, hen, ?_⟩
  intro conditions' hc
  unfold single_phase_start_point
  unfold single_phase_start_point at hok₀
  rw [hc]
  exact hok₀

/-- Witness for C1 at a concrete grid: the second point (energy 3) beats the
first (energy 5), and the composition set is bound to its phase and
coordinates with `NP = 1`. -/
theorem C1_single_phase_start_point_witness :
    ∃ cs i,
      single_phase_start_point (fun _ _ _ => 42) [("T", [300])] {"T"}
          [("PH", { phase_name := "PH", phase_dof := 1, parameters := [],
                    static_data := "" })]
          { GM := [5, 3], Phase := ["PH", "PH"], Y := [[7, 8], [9, 10]] } = some cs ∧
      npArgmin [(5 : ℚ), 3] = some i ∧
      i < 2 ∧
      (∀ j, j < 2 → ([(5 : ℚ), 3]).getD i 0 ≤ ([(5 : ℚ), 3]).getD j 0) ∧
      (∀ j, j < i → ([(5 : ℚ), 3]).getD i 0 < ([(5 : ℚ), 3]).getD j 0) ∧
      cs.NP = 1 ∧
      cs.dof = [9] := by
  have hok : single_phase_start_point (fun _ _ _ => 42) [("T", [300])] {"T"}
      [("PH", { phase_name := "PH", phase_dof := 1, parameters := [], static_data := "" })]
      { GM := [5, 3], Phase := ["PH", "PH"], Y := [[7, 8], [9, 10]] } =
      some { phase_record := { phase_name := "PH", phase_dof := 1, parameters := [],
                               static_data := "" },
             dof := [9], NP := 1, state_vars := [300], energy := 42 } := by
    simp only [single_phase_start_point, Finset.sort_singleton]
    rfl
  obtain ⟨i, pn, Yrow, sv, hi, hilen, hmin, hfirst, hpn, hprx, hY, hsv, hdof, hNP, hstv,
      hen, hcond⟩ :=
    C1_single_phase_start_point (fun _ _ _ => 42) [("T", [300])] {"T"}
      [("PH", { phase_name := "PH", phase_dof := 1, parameters := [], static_data := "" })]
      { GM := [5, 3], Phase := ["PH", "PH"], Y := [[7, 8], [9, 10]] }
      { phase_record := { phase_name := "PH", phase_dof := 1, parameters := [],
                          static_data := "" },
        dof := [9], NP := 1, state_vars := [300], energy := 42 } hok
  exact ⟨_, i, hok, hi, hilen, hmin, hfirst, rfl, rfl⟩

lemma single_phase_start_point_NP (eval : PhaseRecord → List ℚ → List ℚ → ℚ)
    (conditions : Dict (List ℚ)) (state_variables : Finset String)
    (phase_records : Dict PhaseRecord) (grid : Grid) (cs : CompositionSet)
    (hok : single_phase_start_point eval conditions state_variables phase_records grid =
      some cs) : cs.NP = 1 := by
  obtain ⟨_, _, _, _, _, _, _, _, _, _, hNP, _, _⟩ :=
    single_phase_start_point_fields eval conditions state_variables phase_records grid cs hok
  exact hNP

/-- C2: when its starting point and condition preprocessing succeed,
`constrained_equilibrium` returns the external solver's convergence flag
paired with `NP * energy` of the refined composition set; the starting set
has phase fraction 1.0, so for a solver run that reports convergence and
leaves the (single-phase) fraction unchanged, the result is
`(true, 1.0 * converged energy)`. -/
theorem C2_constrained_equilibrium (eval : PhaseRecord → List ℚ → List ℚ → ℚ)
    (gsv : Dict (List ℚ) → Finset String)
    (adjust : Dict (List ℚ) → Dict (List ℚ))
    (solve_and_update : CompositionSet → Dict ℚ → SolverResult × CompositionSet)
    (phase_records : Dict PhaseRecord) (conditions : Dict (List ℚ)) (grid : Grid)
    (cs : CompositionSet) (sc : Dict ℚ)
    (hsc : str_conds_of (adjust conditions)
        (pySorted ((adjust conditions).map (fun kv => kv.1))) = some sc)
    (hsp : single_phase_start_point eval (adjust conditions) (gsv conditions) phase_records
        grid = some cs) :
    constrained_equilibrium eval gsv adjust solve_and_update phase_records conditions grid =
      some ((solve_and_update cs sc).1.converged,
        (solve_and_update cs sc).2.NP * (solve_and_update cs sc).2.energy) ∧
    cs.NP = 1 ∧
    ((solve_and_update cs sc).1.converged = true →
      (solve_and_update cs sc).2.NP = cs.NP →
      constrained_equilibrium eval gsv adjust solve_and_update phase_records conditions
          grid =
        some (true, 1 * (solve_and_update cs sc).2.energy)) := by
  have hNP := single_phase_start_point_NP eval (adjust conditions) (gsv conditions)
    phase_records grid cs hsp
  have hres : constrained_equilibrium eval gsv adjust solve_and_update phase_records
      conditions grid =
      some ((solve_and_update cs sc).1.converged,
        (solve_and_update cs sc).2.NP * (solve_and_update cs sc).2.energy) := by
    unfold constrained_equilibrium
    dsimp only
    rw [hsc, hsp]
    rfl
  refine ⟨hres, hNP, ?_⟩
  intro hconv hpres
  rw [hres, hconv, hpres, hNP]

/-- Witness for C2 at a concrete input, with a solver that converges and
returns its composition set unchanged. -/
theorem C2_constrained_equilibrium_witness :
    constrained_equilibrium (fun _ _ _ => 42) (fun _ => {"T"}) id
        (fun c _ => ({ converged := true }, c))
        [("PH", { phase_name := "PH", phase_dof := 1, parameters := [], static_data := "" })]
        [("T", [300])] { GM := [5, 3], Phase := ["PH", "PH"], Y := [[7, 8], [9, 10]] } =
      some (true, 1 * 42) :=
  (C2_constrained_equilibrium (fun _ _ _ => 42) (fun _ => {"T"}) id
    (fun c _ => ({ converged := true }, c))
    [("PH", { phase_name := "PH", phase_dof := 1, parameters := [], static_data := "" })]
    [("T", [300])] { GM := [5, 3], Phase := ["PH", "PH"], Y := [[7, 8], [9, 10]] }
    { phase_record := { phase_name := "PH", phase_dof := 1, parameters := [],
                        static_data := "" },
      dof := [9], NP := 1, state_vars := [300], energy := 42 }
    [("T", 300)] rfl
    (by
      simp only [single_phase_start_point, Finset.sort_singleton]
      rfl)).2.2 rfl rfl

/-- C3: `no_op_equilibrium_` returns exactly the starting-point value that the
full equilibrium path computes on the adjusted conditions (the input of
`equilibrium_`'s solver stage), for identical inputs; and its result does not
depend on the solver component of the externals at all — the solver is never
invoked. -/
theorem C3_no_op_equilibrium (EqResult : Type) (E Eother : EqExternals EqResult)
    (phase_records : Dict PhaseRecord) (conditions : Dict (List ℚ)) (grid : Grid)
    (hg : Eother.get_state_variables = E.get_state_variables)
    (ha : Eother.adjust_conditions = E.adjust_conditions)
    (hs : Eother.starting_point = E.starting_point) :
    no_op_equilibrium_ EqResult E phase_records conditions grid =
      E.starting_point (E.adjust_conditions conditions)
        (E.get_state_variables conditions) phase_records grid ∧
    equilibrium_ EqResult E phase_records conditions grid =
      E.solve_eq_at_conditions (no_op_equilibrium_ EqResult E phase_records conditions grid)
        phase_records grid (str_conds_full (E.adjust_conditions conditions))
        ((E.get_state_variables conditions).sort pyStrRel) false ∧
    no_op_equilibrium_ EqResult Eother phase_records conditions grid =
      no_op_equilibrium_ EqResult E phase_records conditions grid := by
  refine ⟨rfl, ?_, ?_⟩
  · unfold equilibrium_ no_op_equilibrium_
    dsimp only
    rw [Finset.sort_toFinset]
  · unfold no_op_equilibrium_
    rw [hg, ha, hs]

/-- Witness for C3 at concrete externals: two external bundles that agree on
everything but the solver give the same `no_op_equilibrium_` result, which is
the bare starting point; the full path applies the solver to that value. -/
theorem C3_no_op_equilibrium_witness :
    no_op_equilibrium_ Nat
        { get_state_variables := fun _ => ∅, adjust_conditions := id,
          starting_point := fun _ _ _ _ => 7,
          solve_eq_at_conditions := fun _ _ _ _ _ _ => 99 } [] []
        { GM := [], Phase := [], Y := [] } =
      no_op_equilibrium_ Nat
        { get_state_variables := fun _ => ∅, adjust_conditions := id,
          starting_point := fun _ _ _ _ => 7,
          solve_eq_at_conditions := fun sp _ _ _ _ _ => sp + 1 } [] []
        { GM := [], Phase := [], Y := [] } ∧
    no_op_equilibrium_ Nat
        { get_state_variables := fun _ => ∅, adjust_conditions := id,
          starting_point := fun _ _ _ _ => 7,
          solve_eq_at_conditions := fun sp _ _ _ _ _ => sp + 1 } [] []
        { GM := [], Phase := [], Y := [] } = 7 :=
  ⟨(C3_no_op_equilibrium Nat
      { get_state_variables := fun _ => ∅, adjust_conditions := id,
        starting_point := fun _ _ _ _ => 7,
        solve_eq_at_conditions := fun sp _ _ _ _ _ => sp + 1 }
      { get_state_variables := fun _ => ∅, adjust_conditions := id,
        starting_point := fun _ _ _ _ => 7,
        solve_eq_at_conditions := fun _ _ _ _ _ _ => 99 } [] []
      { GM := [], Phase := [], Y := [] } rfl rfl rfl).2.2, rfl⟩

end Espei
